import Mathlib

/-!
Shallow embedding of the safe-transmute crate (src/base.rs, src/full.rs).

A Rust type `T` is represented by its layout (size and minimum alignment in
bytes); a value of `T` by its byte representation (a list of `size` bytes);
a byte slice by its start address together with its bytes.  The crate's
`guard.rs`, `align.rs`, `error.rs` and `trivial.rs` are not part of the
sources at hand, so the guard policies, the alignment check and the error
shape are modelled from the specification (sections 3, 4.1, 4.2, 4.5);
`base.rs` and `full.rs` are translated directly.
-/

namespace SafeTransmute

/-- Layout of a Rust element type: `size_of` and `align_of` in bytes. -/
structure TypeLayout where
  size : Nat
  align : Nat
deriving DecidableEq, Repr

/-- A byte slice: its start address and its bytes (`len = data.length`). -/
structure ByteSlice where
  addr : Nat
  data : List Nat
deriving DecidableEq, Repr

/-- Modelled from the spec: `ErrorReason` from the missing error.rs, the
reason field of a guard (length) error. -/
inductive ErrorReason where
  | NotEnoughBytes
  | InexactByteCount
deriving DecidableEq, Repr

/-- Modelled from the spec: `GuardError` from the missing error.rs, carrying
the required byte count, the actual byte count, and the reason. -/
structure GuardError where
  required : Nat
  actual : Nat
  reason : ErrorReason
deriving DecidableEq, Repr

/-- Modelled from the spec: the slice-level `Error` union from the missing
error.rs — a guard (length) failure or an alignment failure carrying the
offending offset `addr mod align`. -/
inductive TransErr where
  | guard (e : GuardError)
  | unaligned (offset : Nat)
deriving DecidableEq, Repr

/-- A Rust `Vec<S>`: the raw byte storage it owns plus its length and
capacity counted in elements. -/
structure Vec where
  storage : List Nat
  len : Nat
  cap : Nat
deriving DecidableEq, Repr

/-- Modelled from the spec: the `Error<S, T>` union returned by the
growable-buffer path of the missing error.rs, whose `IncompatibleVecTarget`
variant owns the original vector. -/
inductive VecErr where
  | guard (e : GuardError)
  | unaligned (offset : Nat)
  | incompatible (v : Vec)
deriving DecidableEq, Repr

/-- Modelled from the spec: `PermissiveGuard::check` from the missing
guard.rs — accepts any length, never fails (spec 4.2). -/
def PermissiveGuard.check (_L _E : Nat) : Option GuardError :=
  none

/-- Modelled from the spec: `SingleValueGuard::check` from the missing
guard.rs — `NotEnoughBytes` if `L < E`, `InexactByteCount` if `L > E`,
success exactly when `L = E` (spec 4.2). -/
def SingleValueGuard.check (L E : Nat) : Option GuardError :=
  if L < E then some ⟨E, L, ErrorReason.NotEnoughBytes⟩
  else if E < L then some ⟨E, L, ErrorReason.InexactByteCount⟩
  else none

/-- Modelled from the spec: `SingleManyGuard::check` from the missing
guard.rs — `NotEnoughBytes` if `L < E`, otherwise success with trailing
bytes tolerated (spec 4.2). -/
def SingleManyGuard.check (L E : Nat) : Option GuardError :=
  if L < E then some ⟨E, L, ErrorReason.NotEnoughBytes⟩
  else none

/-- Modelled from the spec: `PedanticGuard::check` from the missing
guard.rs — `NotEnoughBytes` if `L < E` and `L ≠ 0`, `InexactByteCount` if
`L` is not a multiple of `E`, success otherwise, the empty slice included
(spec 4.2). -/
def PedanticGuard.check (L E : Nat) : Option GuardError :=
  if L < E ∧ L ≠ 0 then some ⟨E, L, ErrorReason.NotEnoughBytes⟩
  else if L % E ≠ 0 then some ⟨E, L, ErrorReason.InexactByteCount⟩
  else none

/-- Modelled from the spec: `check_alignment` from the missing align.rs —
computes `addr mod align` and succeeds iff the remainder is zero,
returning the remainder as the unaligned offset otherwise (spec 4.1). -/
def check_alignment (T : TypeLayout) (b : ByteSlice) : Option Nat :=
  let offset := b.addr % T.align
  if offset = 0 then none else some offset

/-- The first `n` chunks of `E` bytes each, cut from a byte list: the typed
view `slice::from_raw_parts(ptr as *const T, n)` over the same memory,
with each element given by its byte representation. -/
def chunkBytes : Nat → Nat → List Nat → List (List Nat)
  | _, 0, _ => []
  | E, n + 1, l => l.take E :: chunkBytes E n (l.drop E)

namespace base

/-- base.rs `from_bytes`: `SingleManyGuard::check::<T>(bytes)?` then the
first element of the one-element view — the first `size_of::<T>()` bytes. -/
def from_bytes (T : TypeLayout) (b : ByteSlice) : Except TransErr (List Nat) :=
  match SingleManyGuard.check b.data.length T.size with
  | some e => Except.error (TransErr.guard e)
  | none => Except.ok (b.data.take T.size)

/-- base.rs `from_bytes_pedantic`: `SingleValueGuard::check::<T>(bytes)?`
then the first element of the one-element view. -/
def from_bytes_pedantic (T : TypeLayout) (b : ByteSlice) : Except TransErr (List Nat) :=
  match SingleValueGuard.check b.data.length T.size with
  | some e => Except.error (TransErr.guard e)
  | none => Except.ok (b.data.take T.size)

/-- base.rs `transmute_many`: `G::check::<T>(bytes)?` then the view
`from_raw_parts(ptr, bytes.len() / size_of::<T>())`.  The guard is passed
as its check function. -/
def transmute_many (G : Nat → Nat → Option GuardError) (T : TypeLayout) (b : ByteSlice) :
    Except TransErr (List (List Nat)) :=
  match G b.data.length T.size with
  | some e => Except.error (TransErr.guard e)
  | none => Except.ok (chunkBytes T.size (b.data.length / T.size) b.data)

/-- base.rs `transmute_many_mut`: `G::check::<T>(bytes)?` then the mutable
view `from_raw_parts_mut(ptr, bytes.len() / size_of::<T>())`. -/
def transmute_many_mut (G : Nat → Nat → Option GuardError) (T : TypeLayout) (b : ByteSlice) :
    Except TransErr (List (List Nat)) :=
  match G b.data.length T.size with
  | some e => Except.error (TransErr.guard e)
  | none => Except.ok (chunkBytes T.size (b.data.length / T.size) b.data)

/-- base.rs `transmute_many_permissive`:
`transmute_many::<_, PermissiveGuard>(bytes).expect(..)` — `none` models
the panic of `expect` on an error. -/
def transmute_many_permissive (T : TypeLayout) (b : ByteSlice) :
    Option (List (List Nat)) :=
  match transmute_many PermissiveGuard.check T b with
  | Except.ok v => some v
  | Except.error _ => none

/-- base.rs `transmute_vec`: keep the raw storage, recompute capacity and
length as `old * size_of::<S>() / size_of::<T>()`, and rehome the parts
into a `Vec<T>`. -/
def transmute_vec (S T : TypeLayout) (v : Vec) : Vec :=
  { storage := v.storage,
    cap := v.cap * S.size / T.size,
    len := v.len * S.size / T.size }

end base

namespace full

/-- full.rs `transmute_one`: `check_alignment::<_, T>(bytes)?` then
`transmute_trivial(bytes)`.  Modelled from the spec: `transmute_trivial`
from the missing trivial.rs is the lenient single-value materialization,
the SingleMany guard then the first element (spec 4.5), i.e.
`base::from_bytes`. -/
def transmute_one (T : TypeLayout) (b : ByteSlice) : Except TransErr (List Nat) :=
  match check_alignment T b with
  | some off => Except.error (TransErr.unaligned off)
  | none => base.from_bytes T b

/-- full.rs `transmute_one_pedantic`: `SingleValueGuard::check::<T>(bytes)?`
FIRST, then `check_alignment::<_, T>(bytes)?`, then `transmute_trivial`. -/
def transmute_one_pedantic (T : TypeLayout) (b : ByteSlice) : Except TransErr (List Nat) :=
  match SingleValueGuard.check b.data.length T.size with
  | some e => Except.error (TransErr.guard e)
  | none =>
    match check_alignment T b with
    | some off => Except.error (TransErr.unaligned off)
    | none => base.from_bytes T b

/-- full.rs `transmute_many`: `check_alignment::<_, T>(bytes)?` then
`transmute_trivial_many::<_, G>(bytes)`.  Modelled from the spec:
`transmute_trivial_many` from the missing trivial.rs is the guarded view,
i.e. `base::transmute_many` (spec 4.5). -/
def transmute_many (G : Nat → Nat → Option GuardError) (T : TypeLayout) (b : ByteSlice) :
    Except TransErr (List (List Nat)) :=
  match check_alignment T b with
  | some off => Except.error (TransErr.unaligned off)
  | none => base.transmute_many G T b

/-- full.rs `transmute_many_permissive`:
`transmute_many::<T, PermissiveGuard>(bytes)`. -/
def transmute_many_permissive (T : TypeLayout) (b : ByteSlice) :
    Except TransErr (List (List Nat)) :=
  transmute_many PermissiveGuard.check T b

/-- full.rs `transmute_many_pedantic`:
`transmute_many::<T, PedanticGuard>(bytes)`. -/
def transmute_many_pedantic (T : TypeLayout) (b : ByteSlice) :
    Except TransErr (List (List Nat)) :=
  transmute_many PedanticGuard.check T b

/-- full.rs `transmute_many_mut`: `check_alignment_mut::<_, T>(bytes)`,
`map_err`, `and_then` `transmute_trivial_many_mut::<_, G>` — the mutable
alignment check is identical to the immutable one (spec 4.1), and
`transmute_trivial_many_mut` is `base::transmute_many_mut`. -/
def transmute_many_mut (G : Nat → Nat → Option GuardError) (T : TypeLayout) (b : ByteSlice) :
    Except TransErr (List (List Nat)) :=
  match check_alignment T b with
  | some off => Except.error (TransErr.unaligned off)
  | none => base.transmute_many_mut G T b

/-- full.rs `transmute_many_permissive_mut`:
`transmute_many_mut::<T, PermissiveGuard>(bytes)`. -/
def transmute_many_permissive_mut (T : TypeLayout) (b : ByteSlice) :
    Except TransErr (List (List Nat)) :=
  transmute_many_mut PermissiveGuard.check T b

/-- full.rs `transmute_many_pedantic_mut`:
`transmute_many_mut::<T, PedanticGuard>(bytes)`. -/
def transmute_many_pedantic_mut (T : TypeLayout) (b : ByteSlice) :
    Except TransErr (List (List Nat)) :=
  transmute_many_mut PedanticGuard.check T b

/-- full.rs `transmute_vec`: if either alignment or size differ between `S`
and `T`, return `IncompatibleVecTargetError::new(vec)` owning the vector;
otherwise rehome the same pointer, length and capacity into a `Vec<T>`. -/
def transmute_vec (S T : TypeLayout) (v : Vec) : Except VecErr Vec :=
  if S.align ≠ T.align ∨ S.size ≠ T.size then
    Except.error (VecErr.incompatible v)
  else
    Except.ok { storage := v.storage, len := v.len, cap := v.cap }

end full

/-! Helper lemmas shared by the claim theorems. -/

/-- The typed view built by `chunkBytes` has exactly the requested number
of elements. -/
theorem chunkBytes_length (E n : Nat) (l : List Nat) :
    (chunkBytes E n l).length = n := by
  induction n generalizing l with
  | zero => rfl
  | succ n ih => simp [chunkBytes, ih]

/-- An aligned slice passes the alignment check. -/
theorem check_alignment_eq_none (T : TypeLayout) (b : ByteSlice)
    (hal : b.addr % T.align = 0) : check_alignment T b = none := by
  simp [check_alignment, hal]

/-- An unaligned slice fails the alignment check with the offending offset. -/
theorem check_alignment_eq_some (T : TypeLayout) (b : ByteSlice)
    (h : b.addr % T.align ≠ 0) :
    check_alignment T b = some (b.addr % T.align) := by
  simp [check_alignment, h]

/-- C1 counterexample: `full::transmute_one_pedantic` with a 2-byte
2-aligned target on a buffer at address 1 (unaligned) with 3 bytes
(invalid length) reports the guard error `InexactByteCount`, not
`Unaligned` — the SingleValue guard runs before the alignment check
(full.rs lines 83-87), refuting the claim that alignment short-circuits
first at every checked entry point. -/
theorem pedantic_one_guard_first_counterexample :
    full.transmute_one_pedantic ⟨2, 2⟩ ⟨1, [0, 0, 0]⟩ =
      Except.error (TransErr.guard ⟨2, 3, ErrorReason.InexactByteCount⟩) ∧
    ¬ ∃ off, full.transmute_one_pedantic ⟨2, 2⟩ ⟨1, [0, 0, 0]⟩ =
      Except.error (TransErr.unaligned off) := by
  refine ⟨rfl, ?_⟩
  rintro ⟨off, hoff⟩
  rw [show full.transmute_one_pedantic ⟨2, 2⟩ ⟨1, [0, 0, 0]⟩ =
    Except.error (TransErr.guard ⟨2, 3, ErrorReason.InexactByteCount⟩)
    from rfl] at hoff
  exact TransErr.noConfusion (Except.error.inj hoff)

/-- C1 amended: on an unaligned buffer, `full::transmute_one`,
`full::transmute_many`, `full::transmute_many_mut` and the policy-fixed
wrappers report `Unaligned` whatever the buffer length, the alignment
check short-circuiting before the guard; `full::transmute_one_pedantic`
is the exception — it evaluates the SingleValue guard first, so it
reports `Unaligned` only when that guard passes. -/
theorem alignment_checked_first (T : TypeLayout) (b : ByteSlice)
    (h : b.addr % T.align ≠ 0) :
    full.transmute_one T b =
      Except.error (TransErr.unaligned (b.addr % T.align)) ∧
    (∀ G, full.transmute_many G T b =
      Except.error (TransErr.unaligned (b.addr % T.align))) ∧
    (∀ G, full.transmute_many_mut G T b =
      Except.error (TransErr.unaligned (b.addr % T.align))) ∧
    full.transmute_many_permissive T b =
      Except.error (TransErr.unaligned (b.addr % T.align)) ∧
    full.transmute_many_pedantic T b =
      Except.error (TransErr.unaligned (b.addr % T.align)) ∧
    full.transmute_many_permissive_mut T b =
      Except.error (TransErr.unaligned (b.addr % T.align)) ∧
    full.transmute_many_pedantic_mut T b =
      Except.error (TransErr.unaligned (b.addr % T.align)) ∧
    (SingleValueGuard.check b.data.length T.size = none →
      full.transmute_one_pedantic T b =
        Except.error (TransErr.unaligned (b.addr % T.align))) := by
  have hca := check_alignment_eq_some T b h
  refine ⟨?_, ?_, ?_, ?_, ?_, ?_, ?_, ?_⟩
  · simp [full.transmute_one, hca]
  · intro G
    simp [full.transmute_many, hca]
  · intro G
    simp [full.transmute_many_mut, hca]
  · simp [full.transmute_many_permissive, full.transmute_many, hca]
  · simp [full.transmute_many_pedantic, full.transmute_many, hca]
  · simp [full.transmute_many_permissive_mut, full.transmute_many_mut, hca]
  · simp [full.transmute_many_pedantic_mut, full.transmute_many_mut, hca]
  · intro hg
    simp [full.transmute_one_pedantic, hg, hca]

/-- C1 amended witness: a 2-byte 2-aligned target on a 5-byte buffer at
odd address 3 reports the unaligned offset 1 from `transmute_one`. -/
theorem alignment_checked_first_witness :
    (3 : Nat) % 2 ≠ 0 ∧
    full.transmute_one ⟨2, 2⟩ ⟨3, [0, 1, 2, 3, 4]⟩ =
      Except.error (TransErr.unaligned 1) :=
  ⟨by decide,
   (alignment_checked_first ⟨2, 2⟩ ⟨3, [0, 1, 2, 3, 4]⟩ (by decide)).1⟩

/-- C2: on an aligned buffer, `full::transmute_many_pedantic` follows the
Pedantic guard exactly: the empty slice succeeds with zero elements, a
nonempty slice shorter than one element is `NotEnoughBytes`, a slice of
at least one element with a nonzero remainder is `InexactByteCount` with
`required = size_of::<T>()` and `actual = len`, and an exact multiple
succeeds with `len / size_of::<T>()` elements. -/
theorem pedantic_many_cases (T : TypeLayout) (b : ByteSlice)
    (hE : 0 < T.size) (hal : b.addr % T.align = 0) :
    (b.data.length = 0 → full.transmute_many_pedantic T b = Except.ok []) ∧
    (0 < b.data.length → b.data.length < T.size →
      full.transmute_many_pedantic T b = Except.error (TransErr.guard
        ⟨T.size, b.data.length, ErrorReason.NotEnoughBytes⟩)) ∧
    (T.size ≤ b.data.length → b.data.length % T.size ≠ 0 →
      full.transmute_many_pedantic T b = Except.error (TransErr.guard
        ⟨T.size, b.data.length, ErrorReason.InexactByteCount⟩)) ∧
    (b.data.length % T.size = 0 →
      ∃ v, full.transmute_many_pedantic T b = Except.ok v ∧
        v.length = b.data.length / T.size) := by
  have hca := check_alignment_eq_none T b hal
  refine ⟨?_, ?_, ?_, ?_⟩
  · intro h0
    simp [full.transmute_many_pedantic, full.transmute_many, hca,
      base.transmute_many, PedanticGuard.check, h0, chunkBytes]
  · intro hpos hlt
    have hne : b.data.length ≠ 0 := Nat.pos_iff_ne_zero.mp hpos
    simp [full.transmute_many_pedantic, full.transmute_many, hca,
      base.transmute_many, PedanticGuard.check, hlt, hne]
  · intro hge hmod
    have hng : ¬ b.data.length < T.size := Nat.not_lt.mpr hge
    simp [full.transmute_many_pedantic, full.transmute_many, hca,
      base.transmute_many, PedanticGuard.check, hng, hmod]
  · intro hmod
    have hc1 : ¬ (b.data.length < T.size ∧ ¬ b.data = []) := by
      rintro ⟨hlt, hne⟩
      exact hne (List.length_eq_zero.mp
        ((Nat.mod_eq_of_lt hlt).symm.trans hmod))
    refine ⟨chunkBytes T.size (b.data.length / T.size) b.data, ?_,
      chunkBytes_length _ _ _⟩
    simp [full.transmute_many_pedantic, full.transmute_many, hca,
      base.transmute_many, PedanticGuard.check, hc1, hmod]

/-- C2 witness: 4 aligned bytes as 2-byte elements succeed with 2
elements. -/
theorem pedantic_many_cases_witness :
    0 < (⟨2, 2⟩ : TypeLayout).size ∧
    ∃ v, full.transmute_many_pedantic ⟨2, 2⟩ ⟨0, [0, 1, 0, 2]⟩ =
      Except.ok v ∧ v.length = 4 / 2 :=
  ⟨by decide,
   (pedantic_many_cases ⟨2, 2⟩ ⟨0, [0, 1, 0, 2]⟩ (by decide)
     (by decide)).2.2.2 (by decide)⟩

/-- C3: the Permissive guard can never produce a length error: the
`expect` inside `base::transmute_many_permissive` never panics and the
view has `len / size_of::<T>()` elements; `full::transmute_many_permissive`
and `full::transmute_many_permissive_mut` can only fail `Unaligned`, and
their successful views also have `len / size_of::<T>()` elements. -/
theorem permissive_guard_total (T : TypeLayout) (b : ByteSlice)
    (hE : 0 < T.size) :
    base.transmute_many_permissive T b =
      some (chunkBytes T.size (b.data.length / T.size) b.data) ∧
    (∀ v, base.transmute_many_permissive T b = some v →
      v.length = b.data.length / T.size) ∧
    (∀ e, full.transmute_many_permissive T b = Except.error e →
      ∃ off, e = TransErr.unaligned off) ∧
    (∀ v, full.transmute_many_permissive T b = Except.ok v →
      v.length = b.data.length / T.size) ∧
    (∀ e, full.transmute_many_permissive_mut T b = Except.error e →
      ∃ off, e = TransErr.unaligned off) ∧
    (∀ v, full.transmute_many_permissive_mut T b = Except.ok v →
      v.length = b.data.length / T.size) := by
  refine ⟨rfl, ?_, ?_, ?_, ?_, ?_⟩
  · intro v hv
    rw [show base.transmute_many_permissive T b =
      some (chunkBytes T.size (b.data.length / T.size) b.data) from rfl] at hv
    cases Option.some.inj hv
    exact chunkBytes_length _ _ _
  · intro e he
    unfold full.transmute_many_permissive full.transmute_many at he
    cases hca : check_alignment T b with
    | some off =>
      rw [hca] at he
      exact ⟨off, (Except.error.inj he).symm⟩
    | none =>
      rw [hca] at he
      exact absurd he (by simp [base.transmute_many, PermissiveGuard.check])
  · intro v hv
    unfold full.transmute_many_permissive full.transmute_many at hv
    cases hca : check_alignment T b with
    | some off =>
      rw [hca] at hv
      exact absurd hv (by simp)
    | none =>
      rw [hca] at hv
      rw [show base.transmute_many PermissiveGuard.check T b =
        Except.ok (chunkBytes T.size (b.data.length / T.size) b.data)
        from rfl] at hv
      cases Except.ok.inj hv
      exact chunkBytes_length _ _ _
  · intro e he
    unfold full.transmute_many_permissive_mut full.transmute_many_mut at he
    cases hca : check_alignment T b with
    | some off =>
      rw [hca] at he
      exact ⟨off, (Except.error.inj he).symm⟩
    | none =>
      rw [hca] at he
      exact absurd he (by simp [base.transmute_many_mut, PermissiveGuard.check])
  · intro v hv
    unfold full.transmute_many_permissive_mut full.transmute_many_mut at hv
    cases hca : check_alignment T b with
    | some off =>
      rw [hca] at hv
      exact absurd hv (by simp)
    | none =>
      rw [hca] at hv
      rw [show base.transmute_many_mut PermissiveGuard.check T b =
        Except.ok (chunkBytes T.size (b.data.length / T.size) b.data)
        from rfl] at hv
      cases Except.ok.inj hv
      exact chunkBytes_length _ _ _

/-- C3 witness: one byte as a 2-byte element is an empty view, no panic. -/
theorem permissive_guard_total_witness :
    0 < (⟨2, 2⟩ : TypeLayout).size ∧
    base.transmute_many_permissive ⟨2, 2⟩ ⟨0, [0]⟩ =
      some (chunkBytes 2 (1 / 2) [0]) :=
  ⟨by decide, (permissive_guard_total ⟨2, 2⟩ ⟨0, [0]⟩ (by decide)).1⟩

/-- C7: the lenient single-value operations succeed iff the slice holds at
least `size_of::<T>()` bytes, returning the value represented by the
first `size_of::<T>()` bytes and ignoring the tail; a shorter slice is
`NotEnoughBytes`. -/
theorem lenient_single_value (T : TypeLayout) (b : ByteSlice)
    (hal : b.addr % T.align = 0) :
    (T.size ≤ b.data.length →
      base.from_bytes T b = Except.ok (b.data.take T.size) ∧
      full.transmute_one T b = Except.ok (b.data.take T.size)) ∧
    (b.data.length < T.size →
      base.from_bytes T b = Except.error (TransErr.guard
        ⟨T.size, b.data.length, ErrorReason.NotEnoughBytes⟩) ∧
      full.transmute_one T b = Except.error (TransErr.guard
        ⟨T.size, b.data.length, ErrorReason.NotEnoughBytes⟩)) := by
  have hca := check_alignment_eq_none T b hal
  constructor
  · intro hge
    have hng : ¬ b.data.length < T.size := Nat.not_lt.mpr hge
    constructor
    · simp [base.from_bytes, SingleManyGuard.check, hng]
    · simp [full.transmute_one, hca, base.from_bytes,
        SingleManyGuard.check, hng]
  · intro hlt
    constructor
    · simp [base.from_bytes, SingleManyGuard.check, hlt]
    · simp [full.transmute_one, hca, base.from_bytes,
        SingleManyGuard.check, hlt]

/-- C7 witness: four aligned bytes as a 2-byte value keep the first two
bytes and ignore the tail. -/
theorem lenient_single_value_witness :
    (0 : Nat) % 2 = 0 ∧
    base.from_bytes ⟨2, 2⟩ ⟨0, [9, 8, 7, 6]⟩ = Except.ok [9, 8] ∧
    full.transmute_one ⟨2, 2⟩ ⟨0, [9, 8, 7, 6]⟩ = Except.ok [9, 8] :=
  ⟨by decide,
   (lenient_single_value ⟨2, 2⟩ ⟨0, [9, 8, 7, 6]⟩ (by decide)).1 (by decide)⟩

/-- C8: the exact single-value operations succeed, returning the value
formed from all the bytes, iff the slice holds exactly `size_of::<T>()`
bytes; a shorter slice is `NotEnoughBytes` and a longer one
`InexactByteCount`. -/
theorem pedantic_single_value (T : TypeLayout) (b : ByteSlice)
    (hal : b.addr % T.align = 0) :
    (b.data.length = T.size →
      base.from_bytes_pedantic T b = Except.ok b.data ∧
      full.transmute_one_pedantic T b = Except.ok b.data) ∧
    (b.data.length < T.size →
      base.from_bytes_pedantic T b = Except.error (TransErr.guard
        ⟨T.size, b.data.length, ErrorReason.NotEnoughBytes⟩) ∧
      full.transmute_one_pedantic T b = Except.error (TransErr.guard
        ⟨T.size, b.data.length, ErrorReason.NotEnoughBytes⟩)) ∧
    (T.size < b.data.length →
      base.from_bytes_pedantic T b = Except.error (TransErr.guard
        ⟨T.size, b.data.length, ErrorReason.InexactByteCount⟩) ∧
      full.transmute_one_pedantic T b = Except.error (TransErr.guard
        ⟨T.size, b.data.length, ErrorReason.InexactByteCount⟩)) := by
  have hca := check_alignment_eq_none T b hal
  refine ⟨?_, ?_, ?_⟩
  · intro heq
    have hn1 : ¬ b.data.length < T.size := by omega
    have hn2 : ¬ T.size < b.data.length := by omega
    have htake : b.data.take T.size = b.data := by
      rw [← heq, List.take_length]
    constructor
    · simp [base.from_bytes_pedantic, SingleValueGuard.check, hn1, hn2, htake]
    · simp [full.transmute_one_pedantic, SingleValueGuard.check, hn1, hn2,
        hca, base.from_bytes, SingleManyGuard.check, htake]
  · intro hlt
    constructor
    · simp [base.from_bytes_pedantic, SingleValueGuard.check, hlt]
    · simp [full.transmute_one_pedantic, SingleValueGuard.check, hlt]
  · intro hgt
    have hng : ¬ b.data.length < T.size := by omega
    constructor
    · simp [base.from_bytes_pedantic, SingleValueGuard.check, hng, hgt]
    · simp [full.transmute_one_pedantic, SingleValueGuard.check, hng, hgt]

/-- C8 witness: exactly two aligned bytes as a 2-byte value succeed with
the whole slice. -/
theorem pedantic_single_value_witness :
    (0 : Nat) % 2 = 0 ∧
    base.from_bytes_pedantic ⟨2, 2⟩ ⟨0, [15, 14]⟩ = Except.ok [15, 14] ∧
    full.transmute_one_pedantic ⟨2, 2⟩ ⟨0, [15, 14]⟩ = Except.ok [15, 14] :=
  ⟨by decide,
   (pedantic_single_value ⟨2, 2⟩ ⟨0, [15, 14]⟩ (by decide)).1 (by decide)⟩

/-- C4: `full::transmute_vec::<S, T>` errors iff `size_of::<S>() ≠
size_of::<T>()` or `align_of::<S>() ≠ align_of::<T>()`; when both are
equal it succeeds for every input vector, and every error it returns is an
`IncompatibleVecTarget`. -/
theorem vec_error_iff (S T : TypeLayout) (v : Vec) :
    ((∃ e, full.transmute_vec S T v = Except.error e) ↔
      (S.size ≠ T.size ∨ S.align ≠ T.align)) ∧
    (∀ e, full.transmute_vec S T v = Except.error e →
      ∃ w, e = VecErr.incompatible w) := by
  unfold full.transmute_vec
  by_cases h : S.align ≠ T.align ∨ S.size ≠ T.size
  · rw [if_pos h]
    refine ⟨⟨fun _ => h.symm, fun _ => ⟨_, rfl⟩⟩, ?_⟩
    intro e he
    exact ⟨v, (Except.error.inj he).symm⟩
  · rw [if_neg h]
    push_neg at h
    constructor
    · constructor
      · rintro ⟨e, he⟩
        exact absurd he (by simp)
      · rintro (hs | ha)
        · exact absurd h.2 hs
        · exact absurd h.1 ha
    · intro e he
      exact absurd he (by simp)

/-- C5: when `full::transmute_vec::<S, T>` fails, the error owns the
original vector completely unchanged — same length, same capacity, same
contents. -/
theorem vec_failure_preserves_original (S T : TypeLayout) (v : Vec) (e : VecErr)
    (h : full.transmute_vec S T v = Except.error e) :
    e = VecErr.incompatible v ∧
    (∀ w, e = VecErr.incompatible w →
      w.len = v.len ∧ w.cap = v.cap ∧ w.storage = v.storage) := by
  unfold full.transmute_vec at h
  by_cases hc : S.align ≠ T.align ∨ S.size ≠ T.size
  · rw [if_pos hc] at h
    refine ⟨(Except.error.inj h).symm, ?_⟩
    intro w hw
    have : VecErr.incompatible v = VecErr.incompatible w := by
      rw [Except.error.inj h, hw]
    cases VecErr.incompatible.inj this
    exact ⟨rfl, rfl, rfl⟩
  · rw [if_neg hc] at h
    exact absurd h (by simp)

/-- C5 witness at a concrete size mismatch. -/
theorem vec_failure_preserves_original_witness :
    VecErr.incompatible ⟨[7], 1, 1⟩ =
      VecErr.incompatible (⟨[7], 1, 1⟩ : Vec) := by
  exact (vec_failure_preserves_original ⟨1, 1⟩ ⟨2, 2⟩ ⟨[7], 1, 1⟩
    (VecErr.incompatible ⟨[7], 1, 1⟩) (by rfl)).1.symm ▸ rfl

/-- C6: with equal sizes and equal alignments, `full::transmute_vec::<S, T>`
succeeds, preserves length and capacity, and applying
`full::transmute_vec::<T, S>` to the result yields back a vector identical
to the original. -/
theorem vec_roundtrip (S T : TypeLayout) (v : Vec)
    (hs : S.size = T.size) (ha : S.align = T.align) :
    ∃ w, full.transmute_vec S T v = Except.ok w ∧
      w.len = v.len ∧ w.cap = v.cap ∧ w.storage = v.storage ∧
      full.transmute_vec T S w = Except.ok v := by
  refine ⟨⟨v.storage, v.len, v.cap⟩, ?_, rfl, rfl, rfl, ?_⟩
  · unfold full.transmute_vec
    rw [if_neg]
    push_neg
    exact ⟨ha, hs⟩
  · unfold full.transmute_vec
    rw [if_neg]
    push_neg
    exact ⟨ha.symm, hs.symm⟩

/-- C6 witness: a round trip between two distinct one-byte layouts. -/
theorem vec_roundtrip_witness :
    (⟨1, 1⟩ : TypeLayout).size = (⟨1, 1⟩ : TypeLayout).size ∧
    ∃ w, full.transmute_vec ⟨1, 1⟩ ⟨1, 1⟩ ⟨[3, 4], 2, 4⟩ = Except.ok w ∧
      w.len = (⟨[3, 4], 2, 4⟩ : Vec).len ∧
      w.cap = (⟨[3, 4], 2, 4⟩ : Vec).cap ∧
      w.storage = (⟨[3, 4], 2, 4⟩ : Vec).storage ∧
      full.transmute_vec ⟨1, 1⟩ ⟨1, 1⟩ w = Except.ok ⟨[3, 4], 2, 4⟩ :=
  ⟨rfl, vec_roundtrip ⟨1, 1⟩ ⟨1, 1⟩ ⟨[3, 4], 2, 4⟩ rfl rfl⟩

/-- C9: `base::transmute_vec::<S, T>` always produces a vector, recomputing
both length and capacity as `old * size_of::<S>() / size_of::<T>()` with
truncating division (multiplication first), keeping the raw storage; the
recomputed extents never exceed the original byte extents, so partial
trailing elements are dropped from both. -/
theorem vec_base_recompute (S T : TypeLayout) (v : Vec) (hT : 0 < T.size) :
    (base.transmute_vec S T v).len = v.len * S.size / T.size ∧
    (base.transmute_vec S T v).cap = v.cap * S.size / T.size ∧
    (base.transmute_vec S T v).storage = v.storage ∧
    (base.transmute_vec S T v).len * T.size ≤ v.len * S.size ∧
    (base.transmute_vec S T v).cap * T.size ≤ v.cap * S.size := by
  refine ⟨rfl, rfl, rfl, ?_, ?_⟩
  · exact Nat.div_mul_le_self (v.len * S.size) T.size
  · exact Nat.div_mul_le_self (v.cap * S.size) T.size

/-- C9 witness: three 3-byte elements viewed as 2-byte elements drop the
trailing byte from both length and capacity. -/
theorem vec_base_recompute_witness :
    0 < (⟨2, 2⟩ : TypeLayout).size ∧
    (base.transmute_vec ⟨3, 1⟩ ⟨2, 2⟩ ⟨[0, 0, 0, 0, 0, 0, 0, 0, 0], 3, 3⟩).len =
      3 * 3 / 2 :=
  ⟨by decide,
   (vec_base_recompute ⟨3, 1⟩ ⟨2, 2⟩ ⟨[0, 0, 0, 0, 0, 0, 0, 0, 0], 3, 3⟩
     (by decide)).1⟩

/-- C10: whatever the guard, a successful `base::transmute_many` or
`base::transmute_many_mut` view has exactly `bytes.len / size_of::<T>()`
elements, and the bytes it spans never exceed the input slice. -/
theorem view_never_exceeds_input (G : Nat → Nat → Option GuardError)
    (T : TypeLayout) (b : ByteSlice) (hE : 0 < T.size) :
    (∀ v, base.transmute_many G T b = Except.ok v →
      v.length = b.data.length / T.size ∧
      v.length * T.size ≤ b.data.length) ∧
    (∀ v, base.transmute_many_mut G T b = Except.ok v →
      v.length = b.data.length / T.size ∧
      v.length * T.size ≤ b.data.length) := by
  constructor
  · intro v hv
    unfold base.transmute_many at hv
    cases hG : G b.data.length T.size with
    | some e => rw [hG] at hv; exact absurd hv (by simp)
    | none =>
      rw [hG] at hv
      have hv' := Except.ok.inj hv
      rw [← hv', chunkBytes_length]
      exact ⟨rfl, Nat.div_mul_le_self b.data.length T.size⟩
  · intro v hv
    unfold base.transmute_many_mut at hv
    cases hG : G b.data.length T.size with
    | some e => rw [hG] at hv; exact absurd hv (by simp)
    | none =>
      rw [hG] at hv
      have hv' := Except.ok.inj hv
      rw [← hv', chunkBytes_length]
      exact ⟨rfl, Nat.div_mul_le_self b.data.length T.size⟩

/-- C10 witness: 5 bytes viewed as 2-byte elements give 2 elements spanning
4 of the 5 bytes. -/
theorem view_never_exceeds_input_witness :
    0 < (⟨2, 2⟩ : TypeLayout).size ∧
    ([[1, 2], [3, 4]].length = 5 / 2 ∧ [[1, 2], [3, 4]].length * 2 ≤ 5) :=
  ⟨by decide,
   (view_never_exceeds_input PermissiveGuard.check ⟨2, 2⟩ ⟨0, [1, 2, 3, 4, 5]⟩
     (by decide)).1 [[1, 2], [3, 4]] (by rfl)⟩

end SafeTransmute
